import Mathlib

/-!
Shallow embedding of `efinance/common/getter.py`: the concurrent batch-fetch
orchestrator (`get_quote_history_multi`), the single-item fetchers
(`get_quote_history_single`, `get_history_bill`), the dispatch facade
(`get_quote_history`), the reference-cache lookup inside `get_deal_detail`,
and the numeric normalizer (`to_numeric`, spec-modelled since its defining
module `efinance/utils` is outside the provided sources).

Network effects are modelled by passing the upstream response (or a
per-attempt response oracle) as an explicit argument; mutable state
(`dfs`, the tqdm progress bar, `BASE_INFO_CACHE`) is threaded explicitly.
-/

namespace Efinance

/-- A cell of a tabular result: either text (as parsed from the wire payload)
or a number produced by the normalizer. -/
inductive Value where
  | vstr : String → Value
  | vnum : Int → Value
deriving DecidableEq

/-- A row-major table: a column schema plus rows of cells, mirroring the
`pd.DataFrame(rows, columns=columns)` construction in `getter.py`. -/
structure Table where
  schema : List String
  rows : List (List Value)
deriving DecidableEq

/-- The two retryable failures of a fetch unit: network/connection failure
(`requests` transport errors) and a structurally unexpected response body. -/
inductive FetchErr where
  | transportError
  | malformedResponse
deriving DecidableEq

/-- The parsed upstream payload of a kline-style endpoint: the instrument
display name (`json_response['data']['name']`) and the `klines` list of
comma-joined row strings (`jsonpath(json_response, '$..klines[:]')`). -/
structure KlinePayload where
  name : String
  klines : List String
deriving DecidableEq

/-- One network round trip's outcome, passed to the fetcher embedding in
place of `session.get(...).json()`. -/
inductive FetchResponse where
  | fail (e : FetchErr)
  | payload (p : KlinePayload)
deriving DecidableEq

/-- Python's `str.split(sep)` for a one-character separator, on the string's
character list: `"a,b".split(',') == ['a','b']`, `''.split(',') == ['']`. -/
def splitCharAux (sep : Char) : List Char → List Char → List String
  | [], acc => [String.mk acc.reverse]
  | c :: cs, acc =>
    if c = sep then String.mk acc.reverse :: splitCharAux sep cs []
    else splitCharAux sep cs (c :: acc)

/-- Python `s.split(sep)` with a single-character separator. -/
def pySplit (s : String) (sep : Char) : List String :=
  splitCharAux sep s.data []

/-- `quote_id.split('.')[-1]`: the bare code after the market qualifier. -/
def codeOfQuoteId (quoteId : String) : String :=
  (pySplit quoteId '.').getLastD ""

/-- Shared body of `get_quote_history_single` (lines 91-104) and
`get_history_bill` (lines 246-258), which duplicate it verbatim in the
source: if `klines` is empty, return a zero-row table whose columns are the
endpoint columns with `'代码'` then `'名称'` inserted at position 0
(final order `名称, 代码, ...columns`); otherwise split each kline on `','`
into a row and insert the code column then the name column at position 0. -/
def parseKlineResponse (columns : List String) (quoteId : String)
    (p : KlinePayload) : Table :=
  if p.klines.isEmpty then
    { schema := "名称" :: "代码" :: columns, rows := [] }
  else
    { schema := "名称" :: "代码" :: columns,
      rows := p.klines.map fun k =>
        Value.vstr p.name :: Value.vstr (codeOfQuoteId quoteId)
          :: (pySplit k ',').map Value.vstr }

/-- `get_quote_history_single(code, ...)` with `quote_id_mode` (the quote id
is taken as given; `get_quote_id` lives outside the provided sources). The
network call is abstracted into the `resp` argument: a transport or parse
failure raises, a payload is parsed by `parseKlineResponse`. -/
def get_quote_history_single (columns : List String) (quoteId : String) :
    FetchResponse → Except FetchErr Table
  | .fail e => .error e
  | .payload p => .ok (parseKlineResponse columns quoteId p)

/-- `get_history_bill(code)` (lines 229-258): identical parse structure with
its own endpoint column list `EASTMONEY_HISTORY_BILL_FIELDS.values()`. -/
def get_history_bill (columns : List String) (quoteId : String) :
    FetchResponse → Except FetchErr Table
  | .fail e => .error e
  | .payload p => .ok (parseKlineResponse columns quoteId p)

/-! ### Retry policy

`@retry(tries=tries, delay=1)` from the `retry` library: call the wrapped
function; on an exception, sleep `delay` and call again, for at most `tries`
total attempts; after the last failing attempt the exception is re-raised to
the caller. The delay has no observable effect beyond time and is dropped.
The attempt body is an oracle `f : Nat → Except FetchErr Table` indexed by
the number of attempts already made. -/

/-- Retry loop: `made` attempts already happened, the `Nat` argument is the
remaining attempt budget. Returns the total number of attempts performed and
the terminal outcome (`ok` result, or the re-raised last error). The budget-0
case is unreachable from `retryRun tries` with `tries ≥ 1`. -/
def retryGo (f : Nat → Except FetchErr Table) (made : Nat) :
    Nat → Nat × Except FetchErr Table
  | 0 => (made, Except.error FetchErr.transportError)
  | n + 1 =>
    match f made with
    | Except.ok t => (made + 1, Except.ok t)
    | Except.error e =>
      if n = 0 then (made + 1, Except.error e) else retryGo f (made + 1) n

/-- Run an attempt body under `@retry(tries=tries)`. -/
def retryRun (tries : Nat) (f : Nat → Except FetchErr Table) :
    Nat × Except FetchErr Table :=
  retryGo f 0 tries

/-! ### Batch orchestrator (`get_quote_history_multi`, lines 107-142)

The shared mutable state of one batch: the `dfs` dict (insertion-ordered,
as Python dicts are) and the tqdm progress counter `pbar.n`. -/

/-- `dict.get`-style lookup in an insertion-ordered association list. -/
def lookupAssoc {α : Type} (l : List (String × α)) (k : String) : Option α :=
  (l.find? (fun q => q.1 == k)).map (fun q => q.2)

/-- Python `d[k] = v`: update in place if the key exists, else append. -/
def insertAssoc {α : Type} (l : List (String × α)) (k : String) (v : α) :
    List (String × α) :=
  if l.any (fun q => q.1 == k) then
    l.map fun q => if q.1 == k then (k, v) else q
  else l ++ [(k, v)]

/-- `list(d.keys())` of an insertion-ordered association list. -/
def assocKeys {α : Type} (l : List (String × α)) : List String :=
  l.map Prod.fst

/-- The shared mutable state of one batch call: the `dfs` result dict and
the progress counter (`pbar.n`, starting at 0). -/
structure BatchState where
  dfs : List (String × Table)
  pbar : Nat
deriving DecidableEq

/-- One identifier's unit of work, `start(code)` (lines 123-135): run
`get_quote_history_single` under the retry policy; on a successful terminal
outcome, write `dfs[code] = _df` and `pbar.update(1)`. On retry exhaustion
the `retry` decorator re-raises the exception inside the spawned thread, so
neither the dict write nor the progress update executes and the state is
unchanged. The per-attempt fetch outcome is the oracle
`fetch : String → Nat → Except FetchErr Table`. -/
def runUnit (tries : Nat) (fetch : String → Nat → Except FetchErr Table)
    (s : BatchState) (code : String) : BatchState :=
  match (retryRun tries (fetch code)).2 with
  | Except.ok t => { dfs := insertAssoc s.dfs code t, pbar := s.pbar + 1 }
  | Except.error _ => s

/-- `get_quote_history_multi(codes, ..., tries)`: spawn one unit per code and
join them all (`multitasking.wait_for_tasks()`), then return `dfs`. This is
the canonical-order execution; the scheduler model below quantifies over
completion orders. -/
def get_quote_history_multi (tries : Nat)
    (fetch : String → Nat → Except FetchErr Table) (codes : List String) :
    BatchState :=
  codes.foldl (runUnit tries fetch) { dfs := [], pbar := 0 }

/-- `True` iff the identifier's unit of work ends in success within the
retry budget. -/
def unitSucceeds (tries : Nat) (fetch : String → Nat → Except FetchErr Table)
    (code : String) : Bool :=
  (retryRun tries (fetch code)).2.isOk

/-! ### Scheduler model for the concurrent join

`get_quote_history_multi` spawns one thread per identifier and blocks on
`multitasking.wait_for_tasks()`. We model the nondeterministic completion
order by a scheduler: `pending` holds spawned units that have not reached a
terminal outcome, `finished` the units that have; each step the scheduler
chooses any pending unit (by rotating the pending list an arbitrary amount)
and runs it to its terminal outcome. -/

/-- Scheduler state of one batch call. -/
structure SchedState where
  pending : List String
  finished : List String
  st : BatchState
deriving DecidableEq

/-- All units spawned, none finished, shared state fresh. -/
def initSched (codes : List String) : SchedState :=
  { pending := codes, finished := [], st := { dfs := [], pbar := 0 } }

/-- One scheduling step: choose a pending unit (element `k mod length` via
rotation) and run it to its terminal outcome. A step on an empty pending
list does nothing. -/
def schedStep (tries : Nat) (fetch : String → Nat → Except FetchErr Table)
    (s : SchedState) (k : Nat) : SchedState :=
  match s.pending.rotate k with
  | [] => s
  | c :: rest =>
    { pending := rest, finished := c :: s.finished,
      st := runUnit tries fetch s.st c }

/-- Run the scheduler under an arbitrary sequence of choices. -/
def schedRun (tries : Nat) (fetch : String → Nat → Except FetchErr Table)
    (choices : List Nat) (s : SchedState) : SchedState :=
  choices.foldl (schedStep tries fetch) s

/-! ### Dispatch facade (`get_quote_history`, lines 145-209) -/

/-- The shapes of Python values a caller can pass as `codes`: a string, a
list of strings, or a non-iterable value (represented by an integer). -/
inductive PyInput where
  | pystr (s : String)
  | pylist (l : List String)
  | pyint (n : Int)
deriving DecidableEq

/-- `isinstance(codes, str)`. -/
def pyIsStr : PyInput → Bool
  | .pystr _ => true
  | .pylist _ => false
  | .pyint _ => false

/-- `hasattr(codes, '__iter__')`: in Python a `str` is itself iterable, so
this is `True` for strings as well as lists, and `False` for `int`. -/
def pyHasIter : PyInput → Bool
  | .pystr _ => true
  | .pylist _ => true
  | .pyint _ => false

/-- The string payload of a `str` input (only read under `pyIsStr`). -/
def theStr : PyInput → String
  | .pystr s => s
  | .pylist _ => ""
  | .pyint _ => ""

/-- `list(codes)`: identity on a list; on a string it would yield the list
of its characters (that branch is unreachable in `get_quote_history` because
the `isinstance(codes, str)` test comes first); calling it on an `int` would
raise, but the `hasattr` guard keeps that branch unreachable too. -/
def theList : PyInput → List String
  | .pystr s => s.data.map (fun c => String.mk [c])
  | .pylist l => l
  | .pyint _ => []

/-- The value `get_quote_history` produces: a single DataFrame, a dict of
DataFrames, or a raised `TypeError`. -/
inductive DispatchResult where
  | single (t : Table)
  | multi (m : List (String × Table))
  | typeError
deriving DecidableEq

/-- `get_quote_history(codes, ...)`: `if isinstance(codes, str)` route to the
single fetcher; `elif hasattr(codes, '__iter__')` route to the batch
orchestrator; otherwise `raise TypeError`. The two fetchers are stubs that
also report how many network requests they performed, so that the error path
can be seen to perform none. -/
def get_quote_history (fetchSingle : String → Table × Nat)
    (fetchMulti : List String → List (String × Table) × Nat)
    (codes : PyInput) : DispatchResult × Nat :=
  if pyIsStr codes then
    let r := fetchSingle (theStr codes)
    (DispatchResult.single r.1, r.2)
  else if pyHasIter codes then
    let r := fetchMulti (theList codes)
    (DispatchResult.multi r.1, r.2)
  else
    (DispatchResult.typeError, 0)

/-! ### Reference cache (`get_deal_detail`, lines 351-352)

`BASE_INFO_CACHE` is a process-wide dict mapping a quote id to the
`pd.Series` returned by `get_base_info`. -/

/-- A reference record: the `pd.Series` of base-info fields for one id. -/
def RefRecord : Type := List (String × Value)

instance : DecidableEq RefRecord :=
  inferInstanceAs (DecidableEq (List (String × Value)))

/-- The cache plus a count of how many `get_base_info` network lookups have
been performed (the call-count stub of the spec's cache-consistency test). -/
structure RefCacheState where
  cache : List (String × RefRecord)
  fetchCount : Nat

/-- The cache consultation at the head of `get_deal_detail`:

  `base_info = BASE_INFO_CACHE.get(quote_id, get_base_info(quote_id))`
  `BASE_INFO_CACHE[quote_id] = base_info`

Python evaluates the second argument of `dict.get` before the call, so
`get_base_info(quote_id)` — one network request — runs on every invocation,
cache hit or miss; its result is only *used* when the key is absent. The
returned pair is (the record the function proceeds with, the state after). -/
def dealDetailCacheLookup (getBase : String → RefRecord)
    (st : RefCacheState) (quoteId : String) : RefRecord × RefCacheState :=
  let fetched := getBase quoteId
  let info :=
    match lookupAssoc st.cache quoteId with
    | some v => v
    | none => fetched
  (info, { cache := insertAssoc st.cache quoteId info,
           fetchCount := st.fetchCount + 1 })

/-! ### Normalizer -/

/-- Modelled from the spec: the Normalizer `to_numeric` is defined in
`efinance/utils`, which is not among the provided source files — only its
decorator applications in `getter.py` are. Per spec §4.1 the conversion is
all-or-nothing per column: a field (column) is converted only when every
value in it parses as a number; values already numeric convert as
themselves (no-op); a column containing any non-numeric text passes through
unchanged and never raises. `p` is the numeric parser applied to string
cells. -/
def parseCell (p : String → Option Int) : Value → Option Int
  | .vnum n => some n
  | .vstr s => p s

/-- Parse a whole column, all-or-nothing: `some` of the numbers exactly when
every cell parses, `none` as soon as any cell does not. -/
def parseColumn (p : String → Option Int) : List Value → Option (List Int)
  | [] => some []
  | v :: vs =>
    match parseCell p v, parseColumn p vs with
    | some n, some ns => some (n :: ns)
    | _, _ => none

/-- Normalize one column: convert it to numbers exactly when every cell
parses, else leave it unchanged. -/
def normalizeColumn (p : String → Option Int) (col : List Value) :
    List Value :=
  match parseColumn p col with
  | some ns => ns.map Value.vnum
  | none => col

/-- A DataFrame viewed column-major (as pandas stores it): named columns of
cells. The normalizer acts per column and touches neither the column names
nor the row count. -/
structure ColTable where
  cols : List (String × List Value)
deriving DecidableEq

/-- Modelled from the spec: `to_numeric` applied to a whole table —
normalize every column independently. -/
def to_numeric (p : String → Option Int) (t : ColTable) : ColTable :=
  { cols := t.cols.map fun c => (c.1, normalizeColumn p c.2) }

/-! ### Concrete stubs for witnesses and counterexamples -/

/-- A fetch oracle that raises a transport error on every attempt. -/
def alwaysFailFetch : String → Nat → Except FetchErr Table :=
  fun _ _ => Except.error FetchErr.transportError

/-- A one-row result table for the demo identifier. -/
def demoTable : Table :=
  { schema := ["名称", "代码", "日期", "收盘"],
    rows := [[Value.vstr "PAB", Value.vstr "000001",
              Value.vstr "2021-01-01", Value.vstr "9.9"]] }

/-- A fetch oracle under which `"1.000001"` succeeds immediately and every
other identifier fails every attempt. -/
def demoFetch : String → Nat → Except FetchErr Table :=
  fun c _ =>
    if c == "1.000001" then Except.ok demoTable
    else Except.error FetchErr.transportError

/-! ### Association-list lemmas -/

lemma lookupAssoc_cons {α : Type} (a : String × α) (l : List (String × α))
    (k : String) :
    lookupAssoc (a :: l) k =
      if a.1 == k then some a.2 else lookupAssoc l k := by
  cases ha : a.1 == k <;> simp [lookupAssoc, List.find?_cons, ha]

lemma lookupAssoc_insertAssoc {α : Type} :
    ∀ (l : List (String × α)) (k : String) (v : α),
      lookupAssoc (insertAssoc l k v) k = some v
  | [], k, v => by simp [insertAssoc, lookupAssoc]
  | a :: l, k, v => by
    cases ha : a.1 == k with
    | true =>
      have hany : ((a :: l).any fun q => q.1 == k) = true := by
        simp [List.any_cons, ha]
      rw [insertAssoc, if_pos hany, List.map_cons, if_pos ha,
        lookupAssoc_cons]
      simp
    | false =>
      have htail := lookupAssoc_insertAssoc l k v
      cases hany : (l.any fun q => q.1 == k) with
      | true =>
        have hanyc : ((a :: l).any fun q => q.1 == k) = true := by
          simp [List.any_cons, hany]
        rw [insertAssoc, if_pos hanyc, List.map_cons, if_neg (by simp [ha]),
          lookupAssoc_cons, if_neg (by simp [ha])]
        rw [insertAssoc, if_pos hany] at htail
        exact htail
      | false =>
        have hanyc : ((a :: l).any fun q => q.1 == k) = false := by
          simp [List.any_cons, ha, hany]
        rw [insertAssoc, if_neg (by simp [hanyc]), List.cons_append,
          lookupAssoc_cons, if_neg (by simp [ha])]
        rw [insertAssoc, if_neg (by simp [hany])] at htail
        exact htail

/-! ### Normalizer lemmas -/

lemma parseColumn_map_vnum (p : String → Option Int) :
    ∀ ns : List Int, parseColumn p (ns.map Value.vnum) = some ns
  | [] => rfl
  | n :: ns => by
    simp [parseColumn, parseCell, parseColumn_map_vnum p ns]

lemma normalizeColumn_idem (p : String → Option Int) (col : List Value) :
    normalizeColumn p (normalizeColumn p col) = normalizeColumn p col := by
  cases h : parseColumn p col with
  | none =>
    have hcol : normalizeColumn p col = col := by simp [normalizeColumn, h]
    rw [hcol]
    exact hcol
  | some ns =>
    have hcol : normalizeColumn p col = ns.map Value.vnum := by
      simp [normalizeColumn, h]
    rw [hcol]
    simp [normalizeColumn, parseColumn_map_vnum]

lemma map_normalize_idem (p : String → Option Int) :
    ∀ cols : List (String × List Value),
      ((cols.map fun c => (c.1, normalizeColumn p c.2)).map
        fun c => (c.1, normalizeColumn p c.2)) =
      cols.map fun c => (c.1, normalizeColumn p c.2)
  | [] => rfl
  | c :: cs => by
    simp only [List.map_cons, map_normalize_idem p cs, normalizeColumn_idem]

/-! ### Claim theorems -/

/-- Claim C2: for an identifier already in the reference cache, a lookup
returns the stored record — two sequential lookups with no external change
do return equal records — but the second lookup does NOT perform zero
fetcher calls: `BASE_INFO_CACHE.get(quote_id, get_base_info(quote_id))`
evaluates its default argument eagerly, so every call, cache hit included,
performs one `get_base_info` network request (`fetchCount` rises by 2 over
the two calls, where the claim requires 1). -/
theorem C2_cache_hit_still_fetches (getBase : String → RefRecord)
    (st : RefCacheState) (q : String) :
    (dealDetailCacheLookup getBase
        (dealDetailCacheLookup getBase st q).2 q).1 =
      (dealDetailCacheLookup getBase st q).1 ∧
    (dealDetailCacheLookup getBase
        (dealDetailCacheLookup getBase st q).2 q).2.fetchCount =
      st.fetchCount + 2 := by
  unfold dealDetailCacheLookup
  simp [lookupAssoc_insertAssoc]

/-- Claim C7: the normalizer is idempotent — normalizing an
already-normalized table changes nothing, for every numeric parser `p` and
every column-major table. -/
theorem C7_normalizer_idempotent (p : String → Option Int) (t : ColTable) :
    to_numeric p (to_numeric p t) = to_numeric p t := by
  cases t with
  | mk cols =>
    simp only [to_numeric]
    exact congrArg ColTable.mk (map_normalize_idem p cols)

lemma parseKlineResponse_schema (columns : List String) (quoteId : String)
    (p : KlinePayload) :
    (parseKlineResponse columns quoteId p).schema =
      "名称" :: "代码" :: columns := by
  unfold parseKlineResponse
  split <;> rfl

/-- Claim C5: a single-item fetch whose upstream payload has no data rows
returns a zero-row table whose columns are exactly the name/code pair
prepended to the endpoint's declared columns, for both kline-style
endpoints; and every successful fetch, empty or not, carries that same
column schema. -/
theorem C5_empty_schema_totality (columns : List String) (quoteId : String)
    (p : KlinePayload) (h : p.klines = []) :
    get_quote_history_single columns quoteId (FetchResponse.payload p) =
      Except.ok { schema := "名称" :: "代码" :: columns, rows := [] } ∧
    get_history_bill columns quoteId (FetchResponse.payload p) =
      Except.ok { schema := "名称" :: "代码" :: columns, rows := [] } ∧
    (∀ (q : KlinePayload) (t : Table),
      get_quote_history_single columns quoteId (FetchResponse.payload q) =
        Except.ok t → t.schema = "名称" :: "代码" :: columns) ∧
    (∀ (q : KlinePayload) (t : Table),
      get_history_bill columns quoteId (FetchResponse.payload q) =
        Except.ok t → t.schema = "名称" :: "代码" :: columns) := by
  have hempty : parseKlineResponse columns quoteId p =
      { schema := "名称" :: "代码" :: columns, rows := [] } := by
    unfold parseKlineResponse
    rw [if_pos (by simp [h])]
  refine ⟨?_, ?_, ?_, ?_⟩
  · show Except.ok (parseKlineResponse columns quoteId p) = _
    rw [hempty]
  · show Except.ok (parseKlineResponse columns quoteId p) = _
    rw [hempty]
  · intro q t ht
    have : parseKlineResponse columns quoteId q = t :=
      Except.ok.inj ht
    rw [← this]
    exact parseKlineResponse_schema columns quoteId q
  · intro q t ht
    have : parseKlineResponse columns quoteId q = t :=
      Except.ok.inj ht
    rw [← this]
    exact parseKlineResponse_schema columns quoteId q

/-- Witness for C5 at a concrete empty payload. -/
theorem C5_witness :
    get_quote_history_single ["日期", "收盘"] "1.000001"
      (FetchResponse.payload { name := "PAB", klines := [] }) =
    Except.ok { schema := ["名称", "代码", "日期", "收盘"], rows := [] } :=
  (C5_empty_schema_totality ["日期", "收盘"] "1.000001"
    { name := "PAB", klines := [] } rfl).1

/-- Claim C8: a payload carrying a non-empty `klines` list of comma-joined
strings yields one row per list element; row `i` is element `i` split on the
comma, aligned against the endpoint columns, with the name and code cells
prepended to every row. -/
theorem C8_klines_rows (columns : List String) (quoteId : String)
    (p : KlinePayload) (h : p.klines ≠ []) :
    ∃ t : Table,
      get_quote_history_single columns quoteId (FetchResponse.payload p) =
        Except.ok t ∧
      t.schema = "名称" :: "代码" :: columns ∧
      t.rows.length = p.klines.length ∧
      ∀ (i : Nat) (k : String), p.klines[i]? = some k →
        t.rows[i]? = some (Value.vstr p.name
          :: Value.vstr (codeOfQuoteId quoteId)
          :: (pySplit k ',').map Value.vstr) := by
  refine ⟨parseKlineResponse columns quoteId p, rfl,
    parseKlineResponse_schema columns quoteId p, ?_, ?_⟩
  all_goals
    unfold parseKlineResponse
    rw [if_neg (by simp [h])]
  · exact List.length_map p.klines _
  · intro i k hk
    rw [List.getElem?_map, hk]
    rfl

/-- Witness for C8 at a concrete two-element payload. -/
theorem C8_witness :
    ∃ t : Table,
      get_quote_history_single ["f1", "f2"] "1.000001"
        (FetchResponse.payload { name := "PAB", klines := ["a,b", "c,d"] }) =
        Except.ok t ∧
      t.rows.length = 2 ∧
      t.rows[1]? = some [Value.vstr "PAB", Value.vstr "000001",
        Value.vstr "c", Value.vstr "d"] := by
  obtain ⟨t, h1, _, h3, h4⟩ := C8_klines_rows ["f1", "f2"] "1.000001"
    { name := "PAB", klines := ["a,b", "c,d"] } (by simp)
  refine ⟨t, h1, h3, ?_⟩
  rw [h4 1 "c,d" rfl]
  rfl

/-- Claim C6: the dispatch facade returns a single table for a string
input, a keyed map for a list input, and for a non-iterable input raises
`TypeError` immediately with zero network requests performed. -/
theorem C6_dispatch_routes (fetchSingle : String → Table × Nat)
    (fetchMulti : List String → List (String × Table) × Nat) :
    (∀ s : String,
      get_quote_history fetchSingle fetchMulti (PyInput.pystr s) =
        (DispatchResult.single (fetchSingle s).1, (fetchSingle s).2)) ∧
    (∀ l : List String,
      get_quote_history fetchSingle fetchMulti (PyInput.pylist l) =
        (DispatchResult.multi (fetchMulti l).1, (fetchMulti l).2)) ∧
    (∀ n : Int,
      get_quote_history fetchSingle fetchMulti (PyInput.pyint n) =
        (DispatchResult.typeError, 0)) :=
  ⟨fun _ => rfl, fun _ => rfl, fun _ => rfl⟩

/-- Claim C10: a string input is itself iterable (`hasattr(s, '__iter__')`
holds), yet dispatch routes it to the single fetcher and returns a single
table, because the `isinstance(codes, str)` test runs before the
iterability test. -/
theorem C10_string_routes_single (fetchSingle : String → Table × Nat)
    (fetchMulti : List String → List (String × Table) × Nat) (s : String) :
    pyHasIter (PyInput.pystr s) = true ∧
    pyIsStr (PyInput.pystr s) = true ∧
    get_quote_history fetchSingle fetchMulti (PyInput.pystr s) =
      (DispatchResult.single (fetchSingle s).1, (fetchSingle s).2) :=
  ⟨rfl, rfl, rfl⟩

/-! ### Batch-orchestrator lemmas -/

lemma pbar_foldl (tries : Nat) (fetch : String → Nat → Except FetchErr Table) :
    ∀ (codes : List String) (s : BatchState),
      (codes.foldl (runUnit tries fetch) s).pbar =
        s.pbar + (codes.filter (unitSucceeds tries fetch)).length
  | [], s => by simp
  | c :: cs, s => by
    rw [List.foldl_cons, pbar_foldl tries fetch cs]
    cases h : (retryRun tries (fetch c)).2 with
    | ok t =>
      have hstep : (runUnit tries fetch s c).pbar = s.pbar + 1 := by
        unfold runUnit
        rw [h]
      have hsucc : unitSucceeds tries fetch c = true := by
        unfold unitSucceeds
        rw [h]
        rfl
      rw [hstep, List.filter_cons, if_pos (by simp [hsucc])]
      simp
      omega
    | error e =>
      have hstep : runUnit tries fetch s c = s := by
        unfold runUnit
        rw [h]
      have hsucc : unitSucceeds tries fetch c = false := by
        unfold unitSucceeds
        rw [h]
        rfl
      rw [hstep, List.filter_cons, if_neg (by simp [hsucc])]

lemma assocKeys_map_replace {α : Type} (l : List (String × α)) (k : String)
    (v : α) :
    assocKeys (l.map fun q => if q.1 == k then (k, v) else q) =
      assocKeys l := by
  unfold assocKeys
  rw [List.map_map]
  apply List.map_congr_left
  intro q _
  by_cases hqk : q.1 == k
  · simp only [Function.comp_apply, if_pos hqk]
    exact (beq_iff_eq.mp hqk).symm
  · simp only [Function.comp_apply, if_neg hqk]

lemma mem_assocKeys_insertAssoc {α : Type} (l : List (String × α))
    (k : String) (v : α) (x : String) :
    x ∈ assocKeys (insertAssoc l k v) ↔ x = k ∨ x ∈ assocKeys l := by
  unfold insertAssoc
  split
  case isTrue hany =>
    rw [assocKeys_map_replace]
    constructor
    · exact Or.inr
    · rintro (rfl | hx)
      · rcases List.any_eq_true.mp hany with ⟨q, hq, hpq⟩
        rw [← beq_iff_eq.mp hpq]
        exact List.mem_map_of_mem Prod.fst hq
      · exact hx
  case isFalse hany =>
    show x ∈ assocKeys (l ++ [(k, v)]) ↔ _
    simp [assocKeys, or_comm]

lemma mem_keys_runUnit (tries : Nat)
    (fetch : String → Nat → Except FetchErr Table) (s : BatchState)
    (c x : String) :
    x ∈ assocKeys ((runUnit tries fetch s c).dfs) ↔
      ((x = c ∧ unitSucceeds tries fetch c = true) ∨
        x ∈ assocKeys s.dfs) := by
  unfold runUnit
  cases h : (retryRun tries (fetch c)).2 with
  | ok t =>
    have hs : unitSucceeds tries fetch c = true := by
      unfold unitSucceeds
      rw [h]
      rfl
    show x ∈ assocKeys (insertAssoc s.dfs c t) ↔ _
    rw [mem_assocKeys_insertAssoc]
    simp [hs]
  | error e =>
    have hs : unitSucceeds tries fetch c = false := by
      unfold unitSucceeds
      rw [h]
      rfl
    show x ∈ assocKeys s.dfs ↔ _
    simp [hs]

lemma retryGo_all_fail (f : Nat → Except FetchErr Table)
    (hf : ∀ n, ∃ e, f n = Except.error e) :
    ∀ (budget made : Nat),
      ∃ e, retryGo f made budget = (made + budget, Except.error e)
  | 0, made => ⟨FetchErr.transportError, by simp [retryGo]⟩
  | n + 1, made => by
    obtain ⟨e, he⟩ := hf made
    unfold retryGo
    rw [he]
    cases n with
    | zero => exact ⟨e, by simp⟩
    | succ m =>
      obtain ⟨e2, he2⟩ := retryGo_all_fail f hf (m + 1) (made + 1)
      refine ⟨e2, ?_⟩
      show (if m + 1 = 0 then (made + 1, Except.error e)
        else retryGo f (made + 1) (m + 1)) = _
      rw [if_neg (Nat.succ_ne_zero m), he2]
      congr 1
      omega

/-! ### Claims about the batch orchestrator -/

/-- Claim C4 (amended): the progress counter is incremented exactly once
per identifier whose unit of work reaches a *successful* terminal outcome,
never per retry attempt — but not for exhausted-retry failures, whose units
die re-raising before `pbar.update(1)` runs; after the batch the counter
equals the number of successfully fetched identifiers. -/
theorem C4_progress_counts_successes (tries : Nat)
    (fetch : String → Nat → Except FetchErr Table) (codes : List String) :
    (get_quote_history_multi tries fetch codes).pbar =
      (codes.filter (unitSucceeds tries fetch)).length := by
  unfold get_quote_history_multi
  rw [pbar_foldl]
  simp

/-- Counterexample to claim C4 as stated: one input identifier whose fetch
always fails leaves the progress counter at 0 after the batch, where the
claim requires it to equal the number of input identifiers, 1. -/
theorem C4_counterexample :
    (get_quote_history_multi 3 alwaysFailFetch ["1.000001"]).pbar = 0 ∧
    List.length ["1.000001"] = 1 :=
  ⟨rfl, rfl⟩

/-- Counterexample to claim C1 as stated: with a single identifier whose
fetch permanently fails, the returned dict is empty — the key is omitted,
not mapped to an empty schema-correct table, so the key set does not equal
the input set. -/
theorem C1_counterexample :
    (get_quote_history_multi 3 alwaysFailFetch ["1.000001"]).dfs = [] ∧
    (assocKeys (get_quote_history_multi 3 alwaysFailFetch
      ["1.000001"]).dfs).contains "1.000001" = false :=
  ⟨rfl, rfl⟩

/-- Claim C3 (amended): with retry budget `tries` and a fetcher that raises
on every attempt, exactly `tries` attempts occur; the unit then terminates
by re-raising the last error inside its thread, so the shared state is
unchanged — in particular the identifier maps to no table at all, rather
than to an empty one. -/
theorem C3_retry_exhaustion (tries : Nat)
    (fetch : String → Nat → Except FetchErr Table) (code : String)
    (s : BatchState) (hf : ∀ n, ∃ e, fetch code n = Except.error e) :
    (retryRun tries (fetch code)).1 = tries ∧
    runUnit tries fetch s code = s := by
  obtain ⟨e, he⟩ := retryGo_all_fail (fetch code) hf tries 0
  constructor
  · unfold retryRun
    rw [he]
    simp
  · unfold runUnit retryRun
    rw [he]

/-- Witness for C3 (amended) at `tries = 3` and an always-failing fetch. -/
theorem C3_witness :
    (retryRun 3 (alwaysFailFetch "1.000001")).1 = 3 ∧
    runUnit 3 alwaysFailFetch { dfs := [], pbar := 0 } "1.000001" =
      { dfs := [], pbar := 0 } :=
  C3_retry_exhaustion 3 alwaysFailFetch "1.000001" { dfs := [], pbar := 0 }
    (fun _ => ⟨FetchErr.transportError, rfl⟩)

/-- Counterexample to claim C3 as stated: with `tries = 3` and an
always-failing fetcher, exactly 3 attempts do occur, but the unit's terminal
outcome is the re-raised transport error and the identifier is bound to no
table — not to an empty table as the claim requires. -/
theorem C3_counterexample :
    (retryRun 3 (alwaysFailFetch "1.000001")).1 = 3 ∧
    (retryRun 3 (alwaysFailFetch "1.000001")).2 =
      Except.error FetchErr.transportError ∧
    lookupAssoc ((runUnit 3 alwaysFailFetch { dfs := [], pbar := 0 }
      "1.000001").dfs) "1.000001" = none :=
  ⟨rfl, rfl, rfl⟩

/-! ### Scheduler lemmas -/

lemma schedStep_pending_length (tries : Nat)
    (fetch : String → Nat → Except FetchErr Table) (s : SchedState)
    (k : Nat) :
    (schedStep tries fetch s k).pending.length = s.pending.length - 1 := by
  unfold schedStep
  cases h : s.pending.rotate k with
  | nil =>
    have hlen : s.pending.length = 0 := by
      have := List.length_rotate s.pending k
      rw [h] at this
      simpa using this.symm
    simp [hlen]
  | cons c rest =>
    have hlen : rest.length + 1 = s.pending.length := by
      have := List.length_rotate s.pending k
      rw [h] at this
      simpa using this
    show rest.length = s.pending.length - 1
    omega

lemma schedStep_perm (tries : Nat)
    (fetch : String → Nat → Except FetchErr Table) (s : SchedState)
    (k : Nat) :
    List.Perm
      ((schedStep tries fetch s k).pending ++
        (schedStep tries fetch s k).finished)
      (s.pending ++ s.finished) := by
  unfold schedStep
  cases h : s.pending.rotate k with
  | nil => simp
  | cons c rest =>
    have hrot : List.Perm (c :: rest) s.pending := by
      rw [← h]
      exact List.rotate_perm s.pending k
    show List.Perm (rest ++ c :: s.finished) (s.pending ++ s.finished)
    exact List.perm_middle.trans (hrot.append_right s.finished)

lemma schedRun_pending_length (tries : Nat)
    (fetch : String → Nat → Except FetchErr Table) :
    ∀ (choices : List Nat) (s : SchedState),
      (schedRun tries fetch choices s).pending.length =
        s.pending.length - choices.length
  | [], s => by simp [schedRun]
  | k :: ks, s => by
    show (schedRun tries fetch ks (schedStep tries fetch s k)).pending.length = _
    rw [schedRun_pending_length tries fetch ks (schedStep tries fetch s k),
      schedStep_pending_length]
    simp
    omega

lemma schedRun_perm (tries : Nat)
    (fetch : String → Nat → Except FetchErr Table) :
    ∀ (choices : List Nat) (s : SchedState),
      List.Perm
        ((schedRun tries fetch choices s).pending ++
          (schedRun tries fetch choices s).finished)
        (s.pending ++ s.finished)
  | [], s => List.Perm.refl _
  | k :: ks, s => by
    show List.Perm
      ((schedRun tries fetch ks (schedStep tries fetch s k)).pending ++
        (schedRun tries fetch ks (schedStep tries fetch s k)).finished) _
    exact (schedRun_perm tries fetch ks (schedStep tries fetch s k)).trans
      (schedStep_perm tries fetch s k)

lemma sched_keys_complete (tries : Nat)
    (fetch : String → Nat → Except FetchErr Table) :
    ∀ (choices : List Nat) (s : SchedState),
      (schedRun tries fetch choices s).pending = [] →
      ∀ x : String,
        x ∈ assocKeys (schedRun tries fetch choices s).st.dfs ↔
          ((x ∈ s.pending ∧ unitSucceeds tries fetch x = true) ∨
            x ∈ assocKeys s.st.dfs)
  | [], s, hpend, x => by
    have hsp : s.pending = [] := hpend
    show x ∈ assocKeys s.st.dfs ↔ _
    simp [hsp]
  | k :: ks, s, hpend, x => by
    have hpend' :
        (schedRun tries fetch ks (schedStep tries fetch s k)).pending = [] :=
      hpend
    show x ∈ assocKeys
      (schedRun tries fetch ks (schedStep tries fetch s k)).st.dfs ↔ _
    cases hrot : s.pending.rotate k with
    | nil =>
      have hstep : schedStep tries fetch s k = s := by
        unfold schedStep
        rw [hrot]
      rw [hstep] at hpend' ⊢
      rw [sched_keys_complete tries fetch ks s hpend' x]
    | cons c rest =>
      have hstep : schedStep tries fetch s k =
          { pending := rest, finished := c :: s.finished,
            st := runUnit tries fetch s.st c } := by
        unfold schedStep
        rw [hrot]
      rw [hstep] at hpend' ⊢
      rw [sched_keys_complete tries fetch ks _ hpend' x]
      show (x ∈ rest ∧ _) ∨ x ∈ assocKeys ((runUnit tries fetch s.st c).dfs)
        ↔ _
      rw [mem_keys_runUnit]
      have hmem : x ∈ s.pending ↔ x = c ∨ x ∈ rest := by
        rw [← (List.rotate_perm s.pending k).mem_iff, hrot, List.mem_cons]
      rw [hmem]
      constructor
      · rintro (⟨hr, hs⟩ | ⟨rfl, hs⟩ | hk)
        · exact Or.inl ⟨Or.inr hr, hs⟩
        · exact Or.inl ⟨Or.inl rfl, hs⟩
        · exact Or.inr hk
      · rintro (⟨rfl | hr, hs⟩ | hk)
        · exact Or.inr (Or.inl ⟨rfl, hs⟩)
        · exact Or.inl ⟨hr, hs⟩
        · exact Or.inr (Or.inr hk)

/-- Claim C1 (amended): once the batch's join condition is reached — every
unit at a terminal outcome, under any completion order — the result dict
contains a key for exactly those input identifiers whose unit of work
succeeded within the retry budget: key membership is equivalent to being a
successfully fetched input. Identifiers whose fetch permanently failed
after exhausting retries are omitted from the dict, not mapped to an empty
table; key order follows completion order and is unspecified. -/
theorem C1_keyset (tries : Nat)
    (fetch : String → Nat → Except FetchErr Table) (codes : List String)
    (choices : List Nat) (h : codes.length ≤ choices.length) :
    ∀ c : String,
      c ∈ assocKeys
        (schedRun tries fetch choices (initSched codes)).st.dfs ↔
        (c ∈ codes ∧ unitSucceeds tries fetch c = true) := by
  intro c
  have hpend :
      (schedRun tries fetch choices (initSched codes)).pending = [] := by
    rw [← List.length_eq_zero, schedRun_pending_length]
    show codes.length - choices.length = 0
    omega
  rw [sched_keys_complete tries fetch choices (initSched codes) hpend c]
  simp [initSched, assocKeys]

/-- Witness for C1 (amended): a two-identifier batch completed in reverse
input order (choices `[1, 0]` finish the failing second unit first); the
dict holds the key of the successful identifier. -/
theorem C1_witness :
    "1.000001" ∈ assocKeys
      (schedRun 3 demoFetch [1, 0]
        (initSched ["1.000001", "0.399001"])).st.dfs :=
  (C1_keyset 3 demoFetch ["1.000001", "0.399001"] [1, 0] (by decide)
    "1.000001").mpr ⟨by decide, by decide⟩

/-- Claim C9: the batch call is a join-all — under every scheduler choice
sequence long enough to drive the run to the point where
`multitasking.wait_for_tasks()` unblocks, no unit is still pending, and the
units that reached a terminal outcome are exactly the input identifiers (as
a permutation: completion order is unspecified). -/
theorem C9_join_all (tries : Nat)
    (fetch : String → Nat → Except FetchErr Table) (codes : List String)
    (choices : List Nat) (h : codes.length ≤ choices.length) :
    (schedRun tries fetch choices (initSched codes)).pending = [] ∧
    List.Perm (schedRun tries fetch choices (initSched codes)).finished
      codes ∧
    ∀ c ∈ codes,
      c ∈ (schedRun tries fetch choices (initSched codes)).finished := by
  have hlen := schedRun_pending_length tries fetch choices (initSched codes)
  have hpend : (schedRun tries fetch choices (initSched codes)).pending = [] := by
    rw [← List.length_eq_zero]
    rw [hlen]
    show codes.length - choices.length = 0
    omega
  have hperm := schedRun_perm tries fetch choices (initSched codes)
  rw [hpend] at hperm
  simp only [initSched, List.nil_append, List.append_nil] at hperm
  exact ⟨hpend, hperm, fun c hc => hperm.mem_iff.mpr hc⟩

/-- Witness for C9: a concrete two-identifier batch driven to completion by
a concrete two-step schedule that finishes the second unit first. -/
theorem C9_witness :
    (schedRun 3 demoFetch [1, 0] (initSched ["1.000001", "0.399001"])).pending
      = [] ∧
    List.Perm
      (schedRun 3 demoFetch [1, 0]
        (initSched ["1.000001", "0.399001"])).finished
      ["1.000001", "0.399001"] := by
  have h := C9_join_all 3 demoFetch ["1.000001", "0.399001"] [1, 0]
    (by decide)
  exact ⟨h.1, h.2.1⟩

end Efinance
